import Mathlib

/-!
Shallow embedding of the session-analytics subsystem of the repository
(`src/user_service/src/user_service/models/session_analytics.py` and the
`/v2/analytics` endpoint of `src/user_service/src/user_service/api.py`).

Timestamps and durations are modelled as integers (one unit = one second;
`timedelta` arithmetic on whole seconds is exact, and no claim below depends
on sub-second rounding).  Calendar days are integers.  `None` becomes
`Option.none`.  Python falsiness is modelled explicitly where the source
relies on it (`if not day_analytics.min_session_length` is true for both
`None` and `timedelta(0)`; `if session_id:` is false for `None` and `0`).
The mean field is a rational, since `timedelta / int` divides; the division
is modelled exactly (the source rounds to whole microseconds, which no claim
below depends on).
-/

/-- `AUTH_TTL_SECONDS = int(os.getenv("AUTH_TTL_SECONDS", "300"))` with the
default configuration. -/
def AUTH_TTL_SECONDS : Int := 300

/-- One row of the `session_analytics` table. -/
structure SessionRec where
  sid : Nat
  user_id : Option Nat
  session_date : Int
  session_start : Int
  session_end : Option Int
  session_length : Option Int
deriving DecidableEq, Repr

/-- One row of the `day_analytics` table.  Statistic columns default to
`NULL`; the counters default to `0`. -/
structure DayRec where
  date : Int
  min_session_length : Option Int
  max_session_length : Option Int
  mean_session_length : Option ℚ
  current_active_users : Int
  max_active_users : Int
deriving DecidableEq, Repr

/-- The persistent store backing `SessionAnalyticsRepository`:
the two tables plus the id sequence (SQLAlchemy ids start at 1). -/
structure Store where
  days : List DayRec
  sessions : List SessionRec
  next_id : Nat
deriving DecidableEq, Repr

def emptyStore : Store := ⟨[], [], 1⟩

/-- A fresh `DayAnalytics(date=d)` row: statistics `NULL`, counters `0`. -/
def freshDay (d : Int) : DayRec := ⟨d, none, none, none, 0, 0⟩

/-- `self.session.get(DayAnalytics, d)`: primary-key lookup. -/
def getDay (st : Store) (d : Int) : Option DayRec :=
  st.days.find? (fun day => day.date == d)

/-- `if not day_analytics: create a new day_analytics row` — the lazy
day-row creation shared by `create` and `update_user_session`. -/
def ensureDay (st : Store) (d : Int) : Store :=
  match getDay st d with
  | some _ => st
  | none => { st with days := st.days ++ [freshDay d] }

/-- Apply `f` to the day row keyed by `d` (in-place ORM mutation + commit). -/
def updateDay (st : Store) (d : Int) (f : DayRec → DayRec) : Store :=
  { st with days := st.days.map (fun day => if day.date == d then f day else day) }

/-- Replace the session row with id `sid` (in-place ORM mutation + commit). -/
def updateSession (st : Store) (sid : Nat) (s' : SessionRec) : Store :=
  { st with sessions := st.sessions.map (fun s => if s.sid == sid then s' else s) }

/-- Python falsiness of a `timedelta | None` value:
`None` and `timedelta(0)` are falsy. -/
def tdFalsy : Option Int → Bool
  | none => true
  | some x => x == 0

/-- Python falsiness of an `int | None` value (`if session_id:`). -/
def idTruthy : Option Nat → Bool
  | none => false
  | some n => n != 0

/-- The day-counter update of `create`:
`current_active_users += 1; if current > max: max = current`. -/
def bumpActive (d : DayRec) : DayRec :=
  let cur := d.current_active_users + 1
  { d with current_active_users := cur,
           max_active_users :=
             if cur > d.max_active_users then cur else d.max_active_users }

/-- `SessionAnalyticsRepository.create(user)`: ensure today's day row,
insert a live session starting now, bump `current_active_users` and fold it
into `max_active_users`. -/
def create (st : Store) (user : Option Nat) (today now : Int) : Store × SessionRec :=
  let st1 := ensureDay st today
  let s : SessionRec := ⟨st1.next_id, user, today, now, none, none⟩
  let st2 := updateDay st1 today bumpActive
  ({ st2 with sessions := st2.sessions ++ [s], next_id := st2.next_id + 1 }, s)

/-- The `select … where user_id == uid order_by _session_start desc limit 1`
of `update_user_session`: the user's most recent session, live or not
(the query has no `_session_end` filter).  On equal start times the later
insertion wins (the SQL order is unspecified there; no claim depends on it). -/
def latestSessionOfUser (st : Store) (uid : Nat) : Option SessionRec :=
  st.sessions.foldl
    (fun acc s =>
      if s.user_id == some uid then
        match acc with
        | none => some s
        | some t => if t.session_start ≤ s.session_start then some s else some t
      else acc)
    none

/-- The day update of `update_user_session`:
`if (day.max_session_length is None) or (length > day.max_session_length)`
then store the new length as the day's `max_session_length`. -/
def bumpMaxLen (newLen : Int) (d : DayRec) : DayRec :=
  { d with max_session_length :=
      match d.max_session_length with
      | none => some newLen
      | some m => if newLen > m then some newLen else some m }

/-- `SessionAnalyticsRepository.update_user_session(user)`: ensure today's
day row; fetch the user's most recent session (no liveness filter); if none,
return `None`; otherwise move its end to `now + TTL`, set
`session_length = end - start`, and update today's `max_session_length`
(`is None` test, then strict comparison). -/
def update_user_session (st : Store) (uid : Nat) (today now : Int) :
    Store × Option SessionRec :=
  let st1 := ensureDay st today
  match latestSessionOfUser st1 uid with
  | none => (st1, none)
  | some latest =>
    let newEnd := now + AUTH_TTL_SECONDS
    let newLen := newEnd - latest.session_start
    let latest' := { latest with session_end := some newEnd,
                                 session_length := some newLen }
    let st2 := updateSession st1 latest.sid latest'
    let st3 := updateDay st2 today (bumpMaxLen newLen)
    (st3, some latest')

/-- `SessionAnalyticsRepository.get(user, session_id)`, by-id branch:
lookup regardless of whether the session has ended. -/
def getById (st : Store) (sid : Nat) : Option SessionRec :=
  st.sessions.find? (fun s => s.sid == sid)

/-- One step of taking the most recent live session of a user: keep the
candidate with the larger `session_start` among rows matching
`user_id == uid AND _session_end IS NULL`. -/
def liveStep (uid : Nat) (acc : Option SessionRec) (s : SessionRec) :
    Option SessionRec :=
  if s.user_id == some uid && s.session_end == none then
    match acc with
    | none => some s
    | some t => if t.session_start ≤ s.session_start then some s else some t
  else acc

/-- `SessionAnalyticsRepository.get(user, session_id)`, by-user branch:
most recent session of the user whose `_session_end` is `NULL`. -/
def getByUserLive (st : Store) (uid : Nat) : Option SessionRec :=
  st.sessions.foldl (liveStep uid) none

/-- The dispatch of `SessionAnalyticsRepository.get`:
`if session_id: … elif user: … else None` (Python truthiness on both). -/
def getSession (st : Store) (user : Option Nat) (session_id : Option Nat) :
    Option SessionRec :=
  if idTruthy session_id then getById st (session_id.getD 0)
  else match user with
       | some uid => getByUserLive st uid
       | none => none

/-- The fold of one finished session into the day's `min`/`max` columns in
`end`.  The first branch is Python-falsy (`if not day.min_session_length`),
so a stored `timedelta(0)` minimum re-triggers it.  When the minimum is set
and non-zero, the maximum is also set in every state the repository can
reach (the first branch always sets both; comparing against a `None`
maximum would raise `TypeError` in the source — that unreachable arm leaves
the row unchanged here). -/
def foldMinMax (mn mx : Option Int) (len : Int) : Option Int × Option Int :=
  if tdFalsy mn then (some len, some len)
  else if len < mn.getD 0 then (some len, mx)
  else match mx with
       | some m => if len > m then (mn, some len) else (mn, mx)
       | none => (mn, mx)

/-- The mean recomputation in `end`: sum `session_length` over the day's
sessions with `session_end` set, then divide by the number of ALL sessions
of the day (`len(day_sessions)`), not by the completed count.  A session
with end set always has a length in reachable states (`getD 0` is never
hit there; the source would raise `TypeError` on a `None` length). -/
def dayMean (sessions : List SessionRec) (d : Int) : ℚ :=
  let daySessions := sessions.filter (fun s => s.session_date == d)
  let total : Int := (daySessions.filter (fun s => s.session_end.isSome)).foldl
    (fun acc s => acc + s.session_length.getD 0) 0
  (total : ℚ) / (daySessions.length : ℚ)

/-- The day update of `end`: clamp-decrement `current_active_users`, fold
the finished length into `min`/`max`, and store the recomputed mean
(`sessions` is the table as of the update, `dte` the session's day). -/
def closeDayUpd (len : Int) (sessions : List SessionRec) (dte : Int) (d : DayRec) : DayRec :=
  let mm := foldMinMax d.min_session_length d.max_session_length len
  { d with current_active_users := max 0 (d.current_active_users - 1),
           min_session_length := mm.1,
           max_session_length := mm.2,
           mean_session_length := some (dayMean sessions dte) }

/-- `SessionAnalyticsRepository.end(user, session_id)`: look the session up
via `get`; if none, return `None` with no writes; otherwise set
`end = now`, `length = end - start`, clamp-decrement the day's
`current_active_users`, fold `length` into `min`/`max`, and recompute the
mean over the day's sessions. -/
def end_ (st : Store) (user : Option Nat) (session_id : Option Nat) (now : Int) :
    Store × Option SessionRec :=
  match getSession st user session_id with
  | none => (st, none)
  | some s =>
    let len := now - s.session_start
    let s' := { s with session_end := some now, session_length := some len }
    let st1 := updateSession st s.sid s'
    let st2 := updateDay st1 s.session_date (closeDayUpd len st1.sessions s.session_date)
    (st2, some s')

/-- `SessionAnalyticsRepository.min_session_length(day)`: the zero duration
when the day row is absent, otherwise the stored column as-is (possibly
`None`). -/
def min_session_length (st : Store) (d : Int) : Option Int :=
  match getDay st d with
  | none => some 0
  | some day => day.min_session_length

/-- `SessionAnalyticsRepository.max_session_length(day)`. -/
def max_session_length (st : Store) (d : Int) : Option Int :=
  match getDay st d with
  | none => some 0
  | some day => day.max_session_length

/-- `SessionAnalyticsRepository.mean_session_length(day)`. -/
def mean_session_length (st : Store) (d : Int) : Option ℚ :=
  match getDay st d with
  | none => some 0
  | some day => day.mean_session_length

/-- `SessionAnalyticsRepository.get_current_active_users(day)`. -/
def get_current_active_users (st : Store) (d : Int) : Int :=
  match getDay st d with
  | none => 0
  | some day => day.current_active_users

/-- `SessionAnalyticsRepository.get_max_active_users(day)`. -/
def get_max_active_users (st : Store) (d : Int) : Int :=
  match getDay st d with
  | none => 0
  | some day => day.max_active_users

/-- PostgreSQL `percentile_cont(f) WITHIN GROUP (ORDER BY v)`: continuous
interpolation at rank `f * (n - 1)` over the sorted values; `NULL` on an
empty group. -/
def percentileCont (f : ℚ) (vals : List Int) : Option ℚ :=
  match vals with
  | [] => none
  | _ =>
    let sorted := vals.insertionSort (fun a b => a ≤ b)
    let r : ℚ := f * ((sorted.length : ℚ) - 1)
    let i : Nat := r.floor.toNat
    let frac : ℚ := r - (i : ℚ)
    let v0 : ℚ := (sorted.getD i 0 : Int)
    let v1 : ℚ := (sorted.getD (i + 1) 0 : Int)
    some (v0 + frac * (v1 - v0))

/-- `SessionAnalyticsRepository.percentile_session_length(percentile, day)`:
the percentile over the lengths of the day's ended sessions; the zero
duration when the day row is absent or the result is `NULL`
(`if not response` — a genuinely zero percentile collapses to the same
value). -/
def percentile_session_length (st : Store) (percentile : ℚ) (d : Int) : ℚ :=
  match getDay st d with
  | none => 0
  | some _ =>
    let vals := (st.sessions.filter
      (fun s => s.session_date == d && s.session_end.isSome)).map
      (fun s => s.session_length.getD 0)
    match percentileCont (percentile / 100) vals with
    | none => 0
    | some q => q

/-- `SessionAnalyticsRepository.median_session_length(day)`. -/
def median_session_length (st : Store) (d : Int) : ℚ :=
  percentile_session_length st 50 d

/-- The response of `GET /v2/analytics` (`session_length` and
`active_users` dictionaries, after the divisions everything is
rational-valued). -/
structure AnalyticsOut where
  sl_min : ℚ
  sl_max : ℚ
  sl_mean : ℚ
  sl_median : ℚ
  sl_p95 : ℚ
  au_current : ℚ
  au_max : ℚ
deriving DecidableEq, Repr

/-- Running sums of the `since` loop of `get_analytics`.  The three
`Option Int`/`Option ℚ` accessors can return `None` (day row present,
column `NULL`); adding that to a `timedelta` raises `TypeError` in the
source, modelled by propagating `none` through the fold. -/
def sinceStep (st : Store) (acc : Option AnalyticsOut) (d : Int) :
    Option AnalyticsOut :=
  match acc with
  | none => none
  | some a =>
    match min_session_length st d, max_session_length st d,
          mean_session_length st d with
    | some mn, some mx, some me =>
      some { sl_min := a.sl_min + (mn : ℚ),
             sl_max := a.sl_max + (mx : ℚ),
             sl_mean := a.sl_mean + me,
             sl_median := a.sl_median + median_session_length st d,
             sl_p95 := a.sl_p95 + percentile_session_length st 95 d,
             au_current := a.au_current + (get_current_active_users st d : ℚ),
             au_max := a.au_max + (get_max_active_users st d : ℚ) }
    | _, _, _ => none

/-- The `since` branch of `get_analytics` in `api.py`:
`days = (date.today() - since).days`, then a loop over
`range(days)` — the dates `since, …, since + days - 1`, today excluded —
summing each per-day statistic, after which every sum is divided by the
literal constant `10` (`session_length[k] /= 10`, `active_users[k] /= 10`).
`none` models the `TypeError` the loop raises when a summed column is
`NULL`. -/
def get_analytics_since (st : Store) (today since : Int) :
    Option AnalyticsOut :=
  let days := today - since
  let dates := (List.range days.toNat).map (fun i => since + (i : Int))
  match dates.foldl (sinceStep st) (some ⟨0, 0, 0, 0, 0, 0, 0⟩) with
  | none => none
  | some a =>
    some { sl_min := a.sl_min / 10, sl_max := a.sl_max / 10,
           sl_mean := a.sl_mean / 10, sl_median := a.sl_median / 10,
           sl_p95 := a.sl_p95 / 10,
           au_current := a.au_current / 10, au_max := a.au_max / 10 }

/-- One repository operation with arbitrary parameters (the clock and the
calendar day are inputs; nothing constrains them to advance). -/
inductive Step : Store → Store → Prop where
  | op_create : ∀ st user today now, Step st (create st user today now).1
  | op_renew : ∀ st uid today now, Step st (update_user_session st uid today now).1
  | op_end : ∀ st user session_id now, Step st (end_ st user session_id now).1

/-- Stores reachable from the empty store by repository operations. -/
inductive Reachable : Store → Prop where
  | init : Reachable emptyStore
  | step : ∀ {st st'}, Reachable st → Step st st' → Reachable st'

/-- The spec-side mean: the arithmetic mean of `length` over exactly the
sessions of day `d` whose end is set (`None` when no session of the day has
ended).  Stated from the spec's words, to compare with the
`mean_session_length` the code stores. -/
def specMeanTerminated (st : Store) (d : Int) : Option ℚ :=
  let ended := st.sessions.filter
    (fun s => s.session_date == d && s.session_end.isSome)
  match ended with
  | [] => none
  | _ =>
    let total : Int := ended.foldl (fun acc s => acc + s.session_length.getD 0) 0
    some ((total : ℚ) / (ended.length : ℚ))

/-- The spec-side range statistic: the simple arithmetic mean of a per-day
value over the days `since, …, today` inclusive.  Stated from the spec's
words, to compare with `get_analytics_since`. -/
def specRangeMean (f : Int → ℚ) (today since : Int) : ℚ :=
  let dates := (List.range (today - since + 1).toNat).map (fun i => since + (i : Int))
  (dates.map f).sum / (dates.length : ℚ)

/-- The per-row invariant P3: end set iff length set, and the length is
exactly end minus start. -/
def SessInv (s : SessionRec) : Prop :=
  (s.session_end.isSome ↔ s.session_length.isSome) ∧
  ∀ e, s.session_end = some e → s.session_length = some (e - s.session_start)

/-- The per-day counter invariant behind P1/P2: a non-negative active count
bounded by the running maximum. -/
def DayInv (d : DayRec) : Prop :=
  0 ≤ d.current_active_users ∧ d.current_active_users ≤ d.max_active_users

/-! Concrete states used to instantiate or refute the claims, each built by
running the repository operations from the empty store. -/

/-- Day 0: sessions opened for users 1 and 2 at time 0, then user 1's
session terminated at time 10 (one terminated, one still live). -/
def stC1 : Store :=
  (end_ (create (create emptyStore (some 1) 0 0).1 (some 2) 0 0).1
    (some 1) none 10).1

/-- Day 0: a single session opened for user 1 at time 0 (id 1). -/
def stOpen1 : Store := (create emptyStore (some 1) 0 0).1

/-- Day 0: user 1's only session opened at time 0 and terminated at
time 10 — a user with no live session. -/
def stC3 : Store := (end_ stOpen1 (some 1) none 10).1

/-- Day 0: a single session opened for user 7 at time 0. -/
def stC4 : Store := (create emptyStore (some 7) 0 0).1

/-- Day 8: one session opened for user 1 at time 0 and terminated at
time 10; every other day has no aggregate row. -/
def stC5 : Store :=
  (end_ (create emptyStore (some 1) 8 0).1 (some 1) none 10).1

/-- Day 0: a session opened and terminated at the same instant, a
zero-length session (`min_session_length` becomes the zero duration). -/
def stC10 : Store := (end_ stOpen1 (some 1) none 0).1

/-! ### Structural lemmas about the store operations -/

lemma ensureDay_sessions (st : Store) (d : Int) :
    (ensureDay st d).sessions = st.sessions := by
  unfold ensureDay; cases getDay st d <;> rfl

lemma ensureDay_next_id (st : Store) (d : Int) :
    (ensureDay st d).next_id = st.next_id := by
  unfold ensureDay; cases getDay st d <;> rfl

lemma updateDay_sessions (st : Store) (d : Int) (f : DayRec → DayRec) :
    (updateDay st d f).sessions = st.sessions := rfl

lemma updateSession_days (st : Store) (sid : Nat) (s' : SessionRec) :
    (updateSession st sid s').days = st.days := rfl

lemma getDay_mem {st : Store} {x : Int} {d : DayRec} (h : getDay st x = some d) :
    d ∈ st.days := List.mem_of_find?_eq_some h

lemma getDay_date {st : Store} {x : Int} {d : DayRec} (h : getDay st x = some d) :
    d.date = x := by
  have := List.find?_some h
  simpa using this

lemma mem_ensureDay_days {st : Store} {d : Int} {d' : DayRec}
    (h : d' ∈ (ensureDay st d).days) : d' ∈ st.days ∨ d' = freshDay d := by
  unfold ensureDay at h
  cases hg : getDay st d <;> rw [hg] at h
  · rcases List.mem_append.mp h with h1 | h1
    · exact Or.inl h1
    · exact Or.inr (by simpa using h1)
  · exact Or.inl h

lemma mem_updateDay_days {st : Store} {d : Int} {f : DayRec → DayRec} {d' : DayRec}
    (h : d' ∈ (updateDay st d f).days) :
    ∃ d₀ ∈ st.days, d' = if d₀.date == d then f d₀ else d₀ := by
  unfold updateDay at h
  rcases List.mem_map.mp h with ⟨d₀, hd₀, hEq⟩
  exact ⟨d₀, hd₀, hEq.symm⟩

lemma getDay_ensureDay_of_some {st : Store} {x : Int} {d : DayRec} (d' : Int)
    (h : getDay st x = some d) : getDay (ensureDay st d') x = some d := by
  unfold ensureDay
  cases hg : getDay st d'
  · unfold getDay at h ⊢
    rw [List.find?_append, h]; rfl
  · exact h

lemma getDay_ensureDay_self (st : Store) (d : Int) :
    getDay (ensureDay st d) d = some ((getDay st d).getD (freshDay d)) := by
  unfold ensureDay
  cases hg : getDay st d
  · unfold getDay at hg ⊢
    rw [List.find?_append, hg]
    simp [freshDay]
  · simpa using hg

lemma findMapComm {α : Type} (l : List α) (f : α → α) (p : α → Bool) :
    (l.map f).find? p = (l.find? (fun a => p (f a))).map f := by
  induction l with
  | nil => rfl
  | cons x xs ih =>
    simp only [List.map_cons, List.find?_cons]
    split <;> simp_all

lemma getDay_updateDay (st : Store) (t x : Int) (f : DayRec → DayRec)
    (hf : ∀ d, (f d).date = d.date) :
    getDay (updateDay st t f) x =
      (getDay st x).map (fun d => if d.date == t then f d else d) := by
  show (st.days.map _).find? _ = _
  rw [findMapComm]
  have hp : (fun d : DayRec => (if d.date == t then f d else d).date == x)
      = (fun d : DayRec => d.date == x) := by
    funext d
    by_cases ht : d.date = t <;> simp [ht, hf]
  rw [hp]; rfl

lemma create_sessions (st : Store) (u : Option Nat) (t n : Int) :
    (create st u t n).1.sessions =
      st.sessions ++ [⟨st.next_id, u, t, n, none, none⟩] := by
  simp only [create, updateDay]
  rw [ensureDay_sessions, ensureDay_next_id]

lemma sessInv_step {st st' : Store} (hInv : ∀ s ∈ st.sessions, SessInv s)
    (hs : Step st st') : ∀ s ∈ st'.sessions, SessInv s := by
  cases hs with
  | op_create u t n =>
    intro s hsm
    rw [create_sessions] at hsm
    rcases List.mem_append.mp hsm with h | h
    · exact hInv s h
    · have : s = ⟨st.next_id, u, t, n, none, none⟩ := by simpa using h
      subst this
      exact ⟨by simp, by simp⟩
  | op_renew uid t n =>
    intro s hsm
    rcases hl : latestSessionOfUser (ensureDay st t) uid with _ | latest
    · simp only [update_user_session, hl] at hsm
      rw [ensureDay_sessions] at hsm
      exact hInv s hsm
    · simp only [update_user_session, hl] at hsm
      rw [updateDay_sessions] at hsm
      unfold updateSession at hsm
      rw [ensureDay_sessions] at hsm
      rcases List.mem_map.mp hsm with ⟨s₀, hs₀, hEq⟩
      by_cases hc : s₀.sid == latest.sid
      · rw [hc] at hEq
        simp only [if_true] at hEq
        subst hEq
        exact ⟨by simp, fun e he => by
          simp only [Option.some.injEq] at he
          simp [← he]⟩
      · rw [if_neg (by simpa using hc)] at hEq
        subst hEq
        exact hInv s₀ hs₀
  | op_end user sid n =>
    intro s hsm
    rcases hg : getSession st user sid with _ | s₀
    · simp only [end_, hg] at hsm
      exact hInv s hsm
    · simp only [end_, hg] at hsm
      rw [updateDay_sessions] at hsm
      unfold updateSession at hsm
      rcases List.mem_map.mp hsm with ⟨s₁, hs₁, hEq⟩
      by_cases hc : s₁.sid == s₀.sid
      · rw [hc] at hEq
        simp only [if_true] at hEq
        subst hEq
        exact ⟨by simp, fun e he => by
          simp only [Option.some.injEq] at he
          simp [← he]⟩
      · rw [if_neg (by simpa using hc)] at hEq
        subst hEq
        exact hInv s₁ hs₁

lemma sessInv_reachable {st : Store} (h : Reachable st) :
    ∀ s ∈ st.sessions, SessInv s := by
  induction h with
  | init => intro s hsm; simp [emptyStore] at hsm
  | step _ hstep ih => exact sessInv_step ih hstep

lemma dayInv_freshDay (d : Int) : DayInv (freshDay d) := ⟨le_refl 0, le_refl 0⟩

lemma dayInv_bumpActive {d : DayRec} (h : DayInv d) : DayInv (bumpActive d) := by
  rcases h with ⟨h1, h2⟩
  dsimp [bumpActive, DayInv]
  split <;> omega

lemma dayInv_bumpMaxLen {d : DayRec} (L : Int) (h : DayInv d) :
    DayInv (bumpMaxLen L d) := h

lemma dayInv_closeDayUpd {d : DayRec} (len : Int) (ss : List SessionRec) (dte : Int)
    (h : DayInv d) : DayInv (closeDayUpd len ss dte d) := by
  rcases h with ⟨h1, h2⟩
  dsimp [closeDayUpd, DayInv]
  exact ⟨le_max_left 0 _, max_le (le_trans h1 h2) (by omega)⟩

lemma bumpActive_date (d : DayRec) : (bumpActive d).date = d.date := rfl

lemma bumpMaxLen_date (L : Int) (d : DayRec) : (bumpMaxLen L d).date = d.date := rfl

lemma closeDayUpd_date (len : Int) (ss : List SessionRec) (dte : Int) (d : DayRec) :
    (closeDayUpd len ss dte d).date = d.date := rfl

lemma create_days (st : Store) (u : Option Nat) (t n : Int) :
    (create st u t n).1.days = (updateDay (ensureDay st t) t bumpActive).days := rfl

lemma dayInv_step {st st' : Store} (hInv : ∀ d ∈ st.days, DayInv d)
    (hs : Step st st') : ∀ d ∈ st'.days, DayInv d := by
  have base : ∀ d ∈ st.days, DayInv d := hInv
  cases hs with
  | op_create u t n =>
    intro d hdm
    have hdm' : d ∈ (updateDay (ensureDay st t) t bumpActive).days := by
      rw [← create_days st u t n]; exact hdm
    rcases mem_updateDay_days hdm' with ⟨d₀, hd₀, hEq⟩
    have hd₀inv : DayInv d₀ := by
      rcases mem_ensureDay_days hd₀ with h | h
      · exact hInv d₀ h
      · rw [h]; exact dayInv_freshDay t
    subst hEq
    by_cases hc : d₀.date == t
    · rw [if_pos hc]; exact dayInv_bumpActive hd₀inv
    · rw [if_neg hc]; exact hd₀inv
  | op_renew uid t n =>
    intro d hdm
    rcases hl : latestSessionOfUser (ensureDay st t) uid with _ | latest
    · simp only [update_user_session, hl] at hdm
      rcases mem_ensureDay_days hdm with h | h
      · exact hInv d h
      · rw [h]; exact dayInv_freshDay t
    · simp only [update_user_session, hl] at hdm
      rcases mem_updateDay_days hdm with ⟨d₀, hd₀, hEq⟩
      rw [updateSession_days] at hd₀
      have hd₀inv : DayInv d₀ := by
        rcases mem_ensureDay_days hd₀ with h | h
        · exact hInv d₀ h
        · rw [h]; exact dayInv_freshDay t
      subst hEq
      by_cases hc : d₀.date == t
      · rw [if_pos hc]; exact dayInv_bumpMaxLen _ hd₀inv
      · rw [if_neg hc]; exact hd₀inv
  | op_end user sid n =>
    intro d hdm
    rcases hg : getSession st user sid with _ | s₀
    · simp only [end_, hg] at hdm
      exact hInv d hdm
    · simp only [end_, hg] at hdm
      rcases mem_updateDay_days hdm with ⟨d₀, hd₀, hEq⟩
      rw [updateSession_days] at hd₀
      have hd₀inv : DayInv d₀ := hInv d₀ hd₀
      subst hEq
      by_cases hc : d₀.date == s₀.session_date
      · rw [if_pos hc]; exact dayInv_closeDayUpd _ _ _ hd₀inv
      · rw [if_neg hc]; exact hd₀inv

lemma dayInv_reachable {st : Store} (h : Reachable st) : ∀ d ∈ st.days, DayInv d := by
  induction h with
  | init => intro d hdm; simp [emptyStore] at hdm
  | step _ hstep ih => exact dayInv_step ih hstep

lemma maxActive_bumpActive (d : DayRec) :
    d.max_active_users ≤ (bumpActive d).max_active_users := by
  dsimp [bumpActive]; split <;> omega

lemma getDay_create (st : Store) (u : Option Nat) (t n x : Int) :
    getDay (create st u t n).1 x =
      (getDay (ensureDay st t) x).map
        (fun d => if d.date == t then bumpActive d else d) := by
  have h : getDay (create st u t n).1 x
      = getDay (updateDay (ensureDay st t) t bumpActive) x := by
    unfold getDay; rw [create_days]
  rw [h, getDay_updateDay (ensureDay st t) t x bumpActive (fun d => rfl)]

lemma maxActive_mono_step {st st' : Store} (hs : Step st st') :
    ∀ x d d', getDay st x = some d → getDay st' x = some d' →
      d.max_active_users ≤ d'.max_active_users := by
  cases hs with
  | op_create u t n =>
    intro x d d' hd hd'
    rw [getDay_create, getDay_ensureDay_of_some t hd] at hd'
    simp only [Option.map_some', Option.some.injEq] at hd'
    rw [← hd']
    by_cases hc : d.date == t
    · rw [if_pos hc]; exact maxActive_bumpActive d
    · rw [if_neg hc]
  | op_renew uid t n =>
    intro x d d' hd hd'
    rcases hl : latestSessionOfUser (ensureDay st t) uid with _ | latest
    · have hst : (update_user_session st uid t n).1 = ensureDay st t := by
        simp [update_user_session, hl]
      rw [hst, getDay_ensureDay_of_some t hd] at hd'
      injection hd' with h
      rw [h]
    · have hst : getDay (update_user_session st uid t n).1 x
          = (getDay (ensureDay st t) x).map
              (fun d => if d.date == t
                then bumpMaxLen (n + AUTH_TTL_SECONDS - latest.session_start) d
                else d) := by
        simp only [update_user_session, hl]
        rw [getDay_updateDay _ t x (bumpMaxLen (n + AUTH_TTL_SECONDS - latest.session_start)) (fun d => rfl)]
        rfl
      rw [hst, getDay_ensureDay_of_some t hd] at hd'
      simp only [Option.map_some', Option.some.injEq] at hd'
      rw [← hd']
      by_cases hc : d.date == t
      · rw [if_pos hc]; exact le_refl _
      · rw [if_neg hc]
  | op_end user sid n =>
    intro x d d' hd hd'
    rcases hg : getSession st user sid with _ | s₀
    · have hst : (end_ st user sid n).1 = st := by simp [end_, hg]
      rw [hst, hd] at hd'
      injection hd' with h
      rw [h]
    · have hst : getDay (end_ st user sid n).1 x
          = (getDay st x).map
              (fun d => if d.date == s₀.session_date
                then closeDayUpd (n - s₀.session_start)
                  (updateSession st s₀.sid
                    { s₀ with session_end := some n,
                              session_length := some (n - s₀.session_start) }).sessions
                  s₀.session_date d
                else d) := by
        simp only [end_, hg]
        rw [getDay_updateDay _ s₀.session_date x (closeDayUpd _ _ _) (fun d => rfl)]
        rfl
      rw [hst, hd] at hd'
      simp only [Option.map_some', Option.some.injEq] at hd'
      rw [← hd']
      by_cases hc : d.date == s₀.session_date
      · rw [if_pos hc]; exact le_refl _
      · rw [if_neg hc]

lemma foldl_liveStep_skip {uid : Nat} (l : List SessionRec) (acc : Option SessionRec)
    (h : ∀ t ∈ l, (t.user_id == some uid && t.session_end == none) = false) :
    l.foldl (liveStep uid) acc = acc := by
  induction l generalizing acc with
  | nil => rfl
  | cons x xs ih =>
    rw [List.foldl_cons]
    have hx := h x (List.mem_cons_self x xs)
    have hstep : liveStep uid acc x = acc := by
      unfold liveStep
      rw [hx]
      simp
    rw [hstep]
    exact ih acc (fun t ht => h t (List.mem_cons_of_mem x ht))

lemma getByUserLive_after_end {st : Store} {uid : Nat} {s : SessionRec} {n₁ : Int}
    (hlive : getByUserLive st uid = some s)
    (huniq : ∀ t ∈ st.sessions, t.user_id = some uid → t.session_end = none → t = s) :
    getByUserLive (end_ st (some uid) none n₁).1 uid = none := by
  have hget : getSession st (some uid) none = some s := by
    simp [getSession, idTruthy, hlive]
  have hsessions : (end_ st (some uid) none n₁).1.sessions =
      st.sessions.map (fun t => if t.sid == s.sid
        then { s with session_end := some n₁,
                      session_length := some (n₁ - s.session_start) }
        else t) := by
    simp only [end_, hget]
    rfl
  unfold getByUserLive
  rw [hsessions]
  apply foldl_liveStep_skip
  intro t ht
  rcases List.mem_map.mp ht with ⟨t₀, ht₀, hEq⟩
  by_cases hc : t₀.sid == s.sid
  · rw [if_pos hc] at hEq
    rw [← hEq]
    simp
  · rw [if_neg hc] at hEq
    rw [← hEq]
    by_cases h1 : t₀.user_id = some uid
    · by_cases h2 : t₀.session_end = none
      · exact absurd (huniq t₀ ht₀ h1 h2 ▸ hc) (by simp)
      · simp [h1, h2]
    · simp [h1]

lemma latest_ensureDay (st : Store) (d : Int) (uid : Nat) :
    latestSessionOfUser (ensureDay st d) uid = latestSessionOfUser st uid := by
  unfold latestSessionOfUser
  rw [ensureDay_sessions]

/-! ### The claims -/

/-- C1: the claim says that after `SessionAnalyticsRepository.end` the day's
`mean_session_length` is the arithmetic mean of `length` over the sessions
of the day whose end is set.  The code instead divides the sum of the
terminated lengths by the number of ALL sessions of the day
(`total_session_length / len(day_sessions)` — the `completed_sessions`
counter it computes is never used).  In `stC1` (users 1 and 2 open at
time 0, user 1 terminated at time 10) the stored mean is 10/2 = 5 while
the mean over terminated sessions is 10. -/
theorem C1_mean_denominator_bug :
    (getDay stC1 0).map DayRec.mean_session_length = some (some 5) ∧
    specMeanTerminated stC1 0 = some 10 ∧
    (5 : ℚ) ≠ 10 := by
  refine ⟨?_, ?_, by norm_num⟩
  · have h : getDay stC1 0 = some ⟨0, some 10, some 10,
        some (dayMean [⟨1, some 1, 0, 0, some 10, some 10⟩,
                       ⟨2, some 2, 0, 0, none, none⟩] 0), 1, 2⟩ := rfl
    rw [h]
    norm_num [dayMean]
  · have hs : stC1.sessions = [⟨1, some 1, 0, 0, some 10, some 10⟩,
        ⟨2, some 2, 0, 0, none, none⟩] := rfl
    norm_num [specMeanTerminated, hs]

/-- C3: the claim says Renew on a user with no live session returns not-found
and changes nothing.  In `stC3` user 1's only session has ended, yet
`update_user_session` (today = 1, now = 20) returns a session (it re-ends
the user's most recent ENDED session — the query lacks the liveness filter
its own docstring describes), rewrites that session's end to
20 + 300 = 320, and creates a Day Aggregate for day 1 that did not exist. -/
theorem C3_renew_ended_session_bug :
    (stC3.sessions.all fun s => s.session_end.isSome) = true ∧
    getDay stC3 1 = none ∧
    (update_user_session stC3 1 1 20).2 ≠ none ∧
    (getDay (update_user_session stC3 1 1 20).1 1).isSome = true ∧
    (getById (update_user_session stC3 1 1 20).1 1).map SessionRec.session_end
      = some (some 320) := by
  refine ⟨by decide, by decide, by decide, by decide, by decide⟩

/-- C5: the claim says `get_analytics` with `since` returns, per field, the
arithmetic mean of the per-day values over the days from `since` through
today.  The code loops over `range((today - since).days)` — excluding
today — and divides every sum by the literal constant 10.  In `stC5`
(data only on day 8, today = 10, since = 8) the endpoint returns 1/10 for
`active_users.max` and 1 for the length fields, while the claimed means
over days 8, 9, 10 are 1/3 and 10/3. -/
theorem C5_divide_by_ten_bug :
    get_analytics_since stC5 10 8 = some ⟨1, 1, 1, 1, 1, 0, 1/10⟩ ∧
    specRangeMean (fun d => (get_max_active_users stC5 d : ℚ)) 10 8 = 1/3 ∧
    specRangeMean (fun d => ((min_session_length stC5 d).getD 0 : ℚ)) 10 8 = 10/3 ∧
    ((1 : ℚ)/10 ≠ 1/3) ∧ ((1 : ℚ) ≠ 10/3) := by
  have hgd8 : getDay stC5 8 = some ⟨8, some 10, some 10,
      some (dayMean [⟨1, some 1, 8, 0, some 10, some 10⟩] 8), 0, 1⟩ := rfl
  have hss : stC5.sessions = [⟨1, some 1, 8, 0, some 10, some 10⟩] := rfl
  have hgd9 : getDay stC5 9 = none := rfl
  refine ⟨?_, ?_, ?_, by norm_num, by norm_num⟩
  · have hdates : (List.range ((10:Int) - 8).toNat).map
        (fun i => (8:Int) + (i : Int)) = [8, 9] := rfl
    have hmn : min_session_length stC5 8 = some 10 := rfl
    have hmx : max_session_length stC5 8 = some 10 := rfl
    have hme : mean_session_length stC5 8 = some 10 := by
      have h0 : mean_session_length stC5 8
          = some (dayMean [⟨1, some 1, 8, 0, some 10, some 10⟩] 8) := rfl
      rw [h0]; norm_num [dayMean]
    have hmed : median_session_length stC5 8 = 10 := by
      simp only [median_session_length, percentile_session_length, hgd8, hss]
      norm_num [percentileCont, List.insertionSort, List.orderedInsert, Rat.floor]
    have hp95 : percentile_session_length stC5 95 8 = 10 := by
      simp only [percentile_session_length, hgd8, hss]
      norm_num [percentileCont, List.insertionSort, List.orderedInsert, Rat.floor]
    have hcu : get_current_active_users stC5 8 = 0 := rfl
    have hmu : get_max_active_users stC5 8 = 1 := rfl
    have hmn9 : min_session_length stC5 9 = some 0 := rfl
    have hmx9 : max_session_length stC5 9 = some 0 := rfl
    have hme9 : mean_session_length stC5 9 = some 0 := rfl
    have hmed9 : median_session_length stC5 9 = 0 := by
      simp [median_session_length, percentile_session_length, hgd9]
    have hp959 : percentile_session_length stC5 95 9 = 0 := by
      simp [percentile_session_length, hgd9]
    have hcu9 : get_current_active_users stC5 9 = 0 := rfl
    have hmu9 : get_max_active_users stC5 9 = 0 := rfl
    have e1 : sinceStep stC5 (some ⟨0, 0, 0, 0, 0, 0, 0⟩) 8
        = some ⟨10, 10, 10, 10, 10, 0, 1⟩ := by
      simp only [sinceStep, hmn, hmx, hme, hmed, hp95, hcu, hmu]
      norm_num
    have e2 : sinceStep stC5 (some ⟨10, 10, 10, 10, 10, 0, 1⟩) 9
        = some ⟨10, 10, 10, 10, 10, 0, 1⟩ := by
      simp only [sinceStep, hmn9, hmx9, hme9, hmed9, hp959, hcu9, hmu9]
      norm_num
    simp only [get_analytics_since, hdates, List.foldl_cons, List.foldl_nil, e1, e2]
    norm_num
  · have hdates : (List.range ((10:Int) - 8 + 1).toNat).map
        (fun i => (8:Int) + (i : Int)) = [8, 9, 10] := rfl
    have h8 : get_max_active_users stC5 8 = 1 := rfl
    have h9 : get_max_active_users stC5 9 = 0 := rfl
    have h10 : get_max_active_users stC5 10 = 0 := rfl
    simp only [specRangeMean, hdates, List.map_cons, List.map_nil, h8, h9, h10,
      List.sum_cons, List.sum_nil, List.length_cons, List.length_nil]
    norm_num
  · have hdates : (List.range ((10:Int) - 8 + 1).toNat).map
        (fun i => (8:Int) + (i : Int)) = [8, 9, 10] := rfl
    have h8 : min_session_length stC5 8 = some 10 := rfl
    have h9 : min_session_length stC5 9 = some 0 := rfl
    have h10 : min_session_length stC5 10 = some 0 := rfl
    simp only [specRangeMean, hdates, List.map_cons, List.map_nil, h8, h9, h10,
      List.sum_cons, List.sum_nil, List.length_cons, List.length_nil]
    norm_num

/-- C2 counterexample: the claim says a second Terminate on the same session
— by session_id as well as by user — leaves `end`/`length` at the values
the first call set.  Ending session 1 of `stOpen1` by session_id at time
10 and again at time 20 overwrites `end` from 10 to 20 (the by-id lookup
has no liveness filter, so the second call re-terminates). -/
theorem C2_double_end_by_id_cex :
    ((end_ stOpen1 none (some 1) 10).2.map SessionRec.session_end)
      = some (some 10) ∧
    ((end_ (end_ stOpen1 none (some 1) 10).1 none (some 1) 20).2.map
        SessionRec.session_end) = some (some 20) ∧
    (getById (end_ (end_ stOpen1 none (some 1) 10).1 none (some 1) 20).1 1).map
        SessionRec.session_end = some (some 20) ∧
    (some (some 20) : Option (Option Int)) ≠ some (some 10) := by
  refine ⟨by decide, by decide, by decide, by decide⟩

/-- C4 counterexample: the claim says after Renew the session's `end`
remains unset.  Renewing user 7's session of `stC4` (opened at time 0) at
time 120 sets `end` to 120 + 300 = 420 — the length matches the claimed
projection 120 + TTL − 0 = 420, but `end` is set, not unset. -/
theorem C4_renew_sets_end_cex :
    ((update_user_session stC4 7 0 120).2.map SessionRec.session_length)
      = some (some 420) ∧
    ((update_user_session stC4 7 0 120).2.map SessionRec.session_end)
      = some (some 420) ∧
    (some (some 420) : Option (Option Int)) ≠ some none := by
  refine ⟨by decide, by decide, by decide⟩

/-- C10 counterexample: the claim says the accessors return the zero
duration only when no Day Aggregate exists.  In `stC10` (a session opened
and terminated at the same instant) day 0's aggregate exists and stores
`min_session_length = 0`, so `min_session_length` returns the zero
duration with the aggregate present — and the state is reachable. -/
theorem C10_zero_with_aggregate_cex :
    min_session_length stC10 0 = some 0 ∧
    (getDay stC10 0).isSome = true ∧
    Reachable stC10 :=
  ⟨by decide, by decide,
   Reachable.step (Reachable.step Reachable.init (Step.op_create emptyStore (some 1) 0 0))
     (Step.op_end stOpen1 (some 1) none 0)⟩

/-- C2, amended: terminating twice by USER is idempotent — after the first
`end` call closes the user's only live session, the second by-user call
finds no live session (the by-user lookup filters on `_session_end IS
NULL`), returns `None`, and leaves the store — in particular `end`,
`length` and `current_active_users` — exactly as the first call left it.
By session_id the second call instead re-terminates (see the
counterexample). -/
theorem C2_idempotent_terminate_by_user (st : Store) (uid : Nat) (now₁ now₂ : Int)
    (s : SessionRec) (hlive : getByUserLive st uid = some s)
    (huniq : ∀ t ∈ st.sessions, t.user_id = some uid → t.session_end = none → t = s) :
    end_ (end_ st (some uid) none now₁).1 (some uid) none now₂
      = ((end_ st (some uid) none now₁).1, none) := by
  have hnone : getByUserLive (end_ st (some uid) none now₁).1 uid = none :=
    getByUserLive_after_end hlive huniq
  generalize hX : (end_ st (some uid) none now₁).1 = X at hnone ⊢
  have hget : getSession X (some uid) none = none := by
    simp [getSession, idTruthy, hnone]
  simp [end_, hget]

theorem C2_idempotent_terminate_by_user_witness :
    end_ (end_ stOpen1 (some 1) none 10).1 (some 1) none 20
      = ((end_ stOpen1 (some 1) none 10).1, none) :=
  C2_idempotent_terminate_by_user stOpen1 1 10 20 ⟨1, some 1, 0, 0, none, none⟩
    (by decide) (by decide)

/-- C4, amended: after a Renew on a user with a live most-recent session,
the returned session's `length` is the projection `now + TTL - start`, and
its `end` is SET to `now + TTL` (the projected expiry) — the session does
not stay live by the end-unset criterion. -/
theorem C4_renew_projection (st : Store) (uid : Nat) (today now : Int)
    (s : SessionRec) (hl : latestSessionOfUser st uid = some s)
    (_hlive : s.session_end = none) :
    (update_user_session st uid today now).2
      = some { s with session_end := some (now + AUTH_TTL_SECONDS),
                      session_length := some (now + AUTH_TTL_SECONDS - s.session_start) } := by
  have hl' : latestSessionOfUser (ensureDay st today) uid = some s := by
    rw [latest_ensureDay]; exact hl
  simp [update_user_session, hl']

theorem C4_renew_projection_witness :
    (update_user_session stC4 7 0 120).2
      = some { (⟨1, some 7, 0, 0, none, none⟩ : SessionRec) with
               session_end := some (120 + AUTH_TTL_SECONDS),
               session_length := some (120 + AUTH_TTL_SECONDS - 0) } :=
  C4_renew_projection stC4 7 0 120 ⟨1, some 7, 0, 0, none, none⟩ (by decide) rfl

/-- C6: in every reachable store, every Session Record has `end` set iff
`length` is set, and when `end = e` the stored length is exactly
`e - start` (P3).  `create` inserts both unset; `update_user_session` and
`end` always write `length = end - start` together with `end`. -/
theorem C6_length_invariant : ∀ st : Store, Reachable st → ∀ s ∈ st.sessions,
    (s.session_end.isSome ↔ s.session_length.isSome) ∧
    ∀ e, s.session_end = some e → s.session_length = some (e - s.session_start) :=
  fun _ h => sessInv_reachable h

theorem C6_length_invariant_witness :
    (⟨1, some 1, 0, 0, some 10, some 10⟩ : SessionRec).session_length
      = some (10 - 0) :=
  (C6_length_invariant (end_ stOpen1 (some 1) none 10).1
    (Reachable.step
      (Reachable.step Reachable.init (Step.op_create emptyStore (some 1) 0 0))
      (Step.op_end stOpen1 (some 1) none 10))
    ⟨1, some 1, 0, 0, some 10, some 10⟩ (by decide)).2 10 rfl

/-- C7: in every reachable store every day's `max_active_users` bounds
`current_active_users` (P1, first half), and across any single repository
operation the `max_active_users` of a day present before and after never
decreases (P1, second half). -/
theorem C7_monotone_max :
    (∀ st : Store, Reachable st → ∀ d ∈ st.days,
      d.current_active_users ≤ d.max_active_users) ∧
    (∀ st st' : Store, Step st st' → ∀ x d d',
      getDay st x = some d → getDay st' x = some d' →
      d.max_active_users ≤ d'.max_active_users) :=
  ⟨fun _ h d hd => (dayInv_reachable h d hd).2,
   fun _ _ hs => maxActive_mono_step hs⟩

theorem C7_monotone_max_witness :
    (⟨0, none, none, none, 1, 1⟩ : DayRec).current_active_users ≤
      (⟨0, none, none, none, 1, 1⟩ : DayRec).max_active_users ∧
    (⟨0, none, none, none, 1, 1⟩ : DayRec).max_active_users ≤
      (⟨0, none, none, none, 2, 2⟩ : DayRec).max_active_users :=
  ⟨C7_monotone_max.1 stOpen1
      (Reachable.step Reachable.init (Step.op_create emptyStore (some 1) 0 0))
      ⟨0, none, none, none, 1, 1⟩ (by decide),
   C7_monotone_max.2 stOpen1 (create stOpen1 (some 2) 0 0).1
      (Step.op_create stOpen1 (some 2) 0 0) 0
      ⟨0, none, none, none, 1, 1⟩ ⟨0, none, none, none, 2, 2⟩
      (by decide) (by decide)⟩

/-- C8: in every reachable store — duplicate terminations included, since
`Step` places no constraint on the operations replayed — every day's
`current_active_users` is non-negative: the decrement in `end` is clamped
by `max(0, current - 1)` (P2). -/
theorem C8_nonnegative_current : ∀ st : Store, Reachable st →
    ∀ d ∈ st.days, 0 ≤ d.current_active_users :=
  fun _ h d hd => (dayInv_reachable h d hd).1

theorem C8_nonnegative_current_witness :
    (0 : Int) ≤ (⟨0, none, none, none, 1, 1⟩ : DayRec).current_active_users :=
  C8_nonnegative_current stOpen1
    (Reachable.step Reachable.init (Step.op_create emptyStore (some 1) 0 0))
    ⟨0, none, none, none, 1, 1⟩ (by decide)

lemma getDay_renew_some {st : Store} {uid : Nat} {t n : Int} {latest : SessionRec}
    (hl : latestSessionOfUser (ensureDay st t) uid = some latest) (x : Int) :
    getDay (update_user_session st uid t n).1 x
      = (getDay (ensureDay st t) x).map
          (fun d => if d.date == t
            then bumpMaxLen (n + AUTH_TTL_SECONDS - latest.session_start) d
            else d) := by
  simp only [update_user_session, hl]
  rw [getDay_updateDay _ t x
    (bumpMaxLen (n + AUTH_TTL_SECONDS - latest.session_start)) (fun d => rfl)]
  rfl

lemma getD_getDay_date (st : Store) (t : Int) :
    ((getDay st t).getD (freshDay t)).date = t := by
  cases h : getDay st t
  · rfl
  · exact getDay_date h

/-- C9: `update_user_session` always ensures (creating it if absent)
today's Day Aggregate; any day other than today keeps its aggregate
unchanged — in particular the day the renewed session actually belongs to,
when it is an earlier one; and when a session was renewed, today's
aggregate is exactly the ensured row with the `max_session_length`
comparison (`bumpMaxLen`) applied to the renewed session's new length. -/
theorem C9_renew_targets_today : ∀ (st : Store) (uid : Nat) (today now : Int),
    (getDay (update_user_session st uid today now).1 today).isSome = true ∧
    (∀ x d, x ≠ today → getDay st x = some d →
      getDay (update_user_session st uid today now).1 x = some d) ∧
    (∀ s L, (update_user_session st uid today now).2 = some s →
      s.session_length = some L →
      getDay (update_user_session st uid today now).1 today
        = some (bumpMaxLen L ((getDay st today).getD (freshDay today)))) := by
  intro st uid t n
  rcases hl : latestSessionOfUser (ensureDay st t) uid with _ | latest
  · have hst : (update_user_session st uid t n).1 = ensureDay st t := by
      simp [update_user_session, hl]
    have hres : (update_user_session st uid t n).2 = none := by
      simp [update_user_session, hl]
    refine ⟨?_, ?_, ?_⟩
    · rw [hst, getDay_ensureDay_self]; rfl
    · intro x d _ hd
      rw [hst]
      exact getDay_ensureDay_of_some t hd
    · intro s L hs _
      rw [hres] at hs
      exact absurd hs (by simp)
  · have hres : (update_user_session st uid t n).2
        = some { latest with
                 session_end := some (n + AUTH_TTL_SECONDS),
                 session_length := some (n + AUTH_TTL_SECONDS - latest.session_start) } := by
      simp [update_user_session, hl]
    refine ⟨?_, ?_, ?_⟩
    · rw [getDay_renew_some hl t, getDay_ensureDay_self]
      rfl
    · intro x d hx hd
      rw [getDay_renew_some hl x, getDay_ensureDay_of_some t hd]
      have hdx : d.date = x := getDay_date hd
      simp [hdx, hx]
    · intro s L hs hL
      rw [hres] at hs
      have hs' : { latest with
          session_end := some (n + AUTH_TTL_SECONDS),
          session_length := some (n + AUTH_TTL_SECONDS - latest.session_start) } = s := by
        exact Option.some.inj hs
      rw [← hs'] at hL
      have hLn : L = n + AUTH_TTL_SECONDS - latest.session_start :=
        (Option.some.inj hL).symm
      rw [getDay_renew_some hl t, getDay_ensureDay_self]
      simp only [Option.map_some']
      rw [if_pos (by simp [getD_getDay_date st t]), hLn]

theorem C9_renew_targets_today_witness :
    (getDay (update_user_session stOpen1 1 5 100).1 5).isSome = true ∧
    getDay (update_user_session stOpen1 1 5 100).1 0
      = some ⟨0, none, none, none, 1, 1⟩ ∧
    getDay (update_user_session stOpen1 1 5 100).1 5
      = some (bumpMaxLen 400 ((getDay stOpen1 5).getD (freshDay 5))) :=
  ⟨(C9_renew_targets_today stOpen1 1 5 100).1,
   (C9_renew_targets_today stOpen1 1 5 100).2.1 0 ⟨0, none, none, none, 1, 1⟩
     (by decide) (by decide),
   (C9_renew_targets_today stOpen1 1 5 100).2.2
     ⟨1, some 1, 0, 0, some 400, some 400⟩ 400 (by decide) rfl⟩

/-- C10, amended: the three session-length accessors return the zero
duration as the no-aggregate fallback; when the aggregate row exists they
return the stored column unchanged — `None` when it is unset (no session
of the day has terminated), but possibly the zero duration itself when a
zero-length session has terminated (see the counterexample). -/
theorem C10_accessor_fallback : ∀ (st : Store) (d : Int),
    (getDay st d = none →
      min_session_length st d = some 0 ∧
      max_session_length st d = some 0 ∧
      mean_session_length st d = some 0) ∧
    (∀ day, getDay st d = some day →
      min_session_length st d = day.min_session_length ∧
      max_session_length st d = day.max_session_length ∧
      mean_session_length st d = day.mean_session_length) := by
  intro st d
  constructor
  · intro h
    simp [min_session_length, max_session_length, mean_session_length, h]
  · intro day h
    simp [min_session_length, max_session_length, mean_session_length, h]

theorem C10_accessor_fallback_witness :
    min_session_length stOpen1 0 = none ∧
    max_session_length stOpen1 0 = none ∧
    mean_session_length stOpen1 0 = none :=
  (C10_accessor_fallback stOpen1 0).2 ⟨0, none, none, none, 1, 1⟩ (by decide)
